import Mathlib

/-!
Shallow embedding of the RxGo subject/observable core
(behavior_subject.go, replay_subject.go, subject.go, observer.go and the
observable operator file) together with proofs about the claims of the
specification.  Go mutexes are dropped (the embedding is sequential),
`error` interface values become an explicit type parameter `ε` with
`Option ε` for the nil-able `err` field, and registered observers are
represented by numeric identifiers handed out by a `fresh` counter (the
Go code stores the observer callbacks themselves; only the identity and
the order of registered observers matter for delivery).
-/

set_option maxHeartbeats 1000000

namespace RxGo

/-- The three notification kinds an observer can receive:
`next v`, `error e`, `complete`. -/
inductive Notification (α ε : Type) where
  | next (v : α)
  | error (e : ε)
  | complete
deriving DecidableEq, Repr

/-- The value returned by `Subscribe` in the Go code: either
`&emptySubscription{}` (the already-terminal subscription returned when
the subject is closed) or the literal `nil` returned otherwise. -/
inductive SubscribeRet where
  | emptySub
  | nilSub
deriving DecidableEq, Repr

/-- State of `behaviorSubject[T]`: the embedded `subject[T]` fields
(`closed`, `err`, `observers`) plus the retained value `v`.
`fresh` is model bookkeeping that hands out observer identifiers. -/
structure behaviorSubject (α ε : Type) where
  closed : Bool
  err : Option ε
  observers : List Nat
  fresh : Nat
  v : α
deriving DecidableEq, Repr

/-- `NewBehaviorSubject(value ...T)`: seeds `v` with the optional seed,
else the zero value of `T`; the explicit argument covers both cases. -/
def NewBehaviorSubject (v : α) : behaviorSubject α ε :=
  { closed := false, err := none, observers := [], fresh := 0, v := v }

/-- `behaviorSubject.Next`: if closed, return; else store the value and
forward it to every registered observer.  Returns the new state and the
list of `(observer id, notification)` deliveries made. -/
def behaviorSubject.Next (s : behaviorSubject α ε) (value : α) :
    behaviorSubject α ε × List (Nat × Notification α ε) :=
  if s.closed then (s, [])
  else ({ s with v := value }, s.observers.map fun i => (i, .next value))

/-- `behaviorSubject.Error`: if closed, return; else record `err`,
deliver the error to every observer in insertion order and clear the
observer list.  Note it does NOT set `closed`. -/
def behaviorSubject.Error (s : behaviorSubject α ε) (e : ε) :
    behaviorSubject α ε × List (Nat × Notification α ε) :=
  if s.closed then (s, [])
  else ({ s with err := some e, observers := [] },
        s.observers.map fun i => (i, .error e))

/-- `behaviorSubject.Complete`: if closed, return; else set `closed`,
deliver `complete` to every observer in insertion order and clear the
observer list. -/
def behaviorSubject.Complete (s : behaviorSubject α ε) :
    behaviorSubject α ε × List (Nat × Notification α ε) :=
  if s.closed then (s, [])
  else ({ s with closed := true, observers := [] },
        s.observers.map fun i => (i, .complete))

/-- `behaviorSubject.Value`: the retained value. -/
def behaviorSubject.Value (s : behaviorSubject α ε) : α := s.v

/-- `behaviorSubject.Subscribe`: if closed, return the empty
subscription; else append a new observer and return Go `nil`.  Result:
new state, notifications delivered to the new observer at subscribe
time (the Go code delivers none), and the returned subscription. -/
def behaviorSubject.Subscribe (s : behaviorSubject α ε) :
    behaviorSubject α ε × List (Notification α ε) × SubscribeRet :=
  if s.closed then (s, [], .emptySub)
  else ({ s with observers := s.observers ++ [s.fresh], fresh := s.fresh + 1 },
        [], .nilSub)

/-- State of `replaySubject[T]`: the embedded `subject[T]` fields plus
`bufferSize` (Go `uint64`, zero-valued by the constructor) and the
`queue` of `(timestamp, value)` replay items.  The `scheduler` field is
always `nil` in the source and its `trim` branch is empty, so it is
omitted. -/
structure replaySubject (α ε : Type) where
  closed : Bool
  err : Option ε
  observers : List Nat
  fresh : Nat
  bufferSize : Nat
  queue : List (Nat × α)
deriving DecidableEq, Repr

/-- `NewReplaySubject()`: every field zero-valued. -/
def NewReplaySubject : replaySubject α ε :=
  { closed := false, err := none, observers := [], fresh := 0,
    bufferSize := 0, queue := [] }

/-- `replaySubject.trim` on the queue: drop the head element when the
queue length exceeds `bufferSize` (the Go code drops exactly one). -/
def replaySubject.trimQueue (bufferSize : Nat) (q : List (Nat × α)) :
    List (Nat × α) :=
  if bufferSize < q.length then q.drop 1 else q

/-- `replaySubject.Next`: if closed, return; else append
`(time.Now(), value)` to the queue, trim, and forward the value to every
registered observer.  The current time is an explicit argument. -/
def replaySubject.Next (s : replaySubject α ε) (now : Nat) (value : α) :
    replaySubject α ε × List (Nat × Notification α ε) :=
  if s.closed then (s, [])
  else ({ s with queue := replaySubject.trimQueue s.bufferSize (s.queue ++ [(now, value)]) },
        s.observers.map fun i => (i, .next value))

/-- `replaySubject.Error`: if closed, return; else record `err`, deliver
the error to every observer and clear the observer list.  Like the
behavior subject, it does NOT set `closed`. -/
def replaySubject.Error (s : replaySubject α ε) (e : ε) :
    replaySubject α ε × List (Nat × Notification α ε) :=
  if s.closed then (s, [])
  else ({ s with err := some e, observers := [] },
        s.observers.map fun i => (i, .error e))

/-- `replaySubject.Complete`: if closed, return; else set `closed`,
deliver `complete` to every observer and clear the observer list. -/
def replaySubject.Complete (s : replaySubject α ε) :
    replaySubject α ε × List (Nat × Notification α ε) :=
  if s.closed then (s, [])
  else ({ s with closed := true, observers := [] },
        s.observers.map fun i => (i, .complete))

/-- `replaySubject.Subscribe`: if closed, return the empty subscription;
else register a new observer, replay the whole queue to it, then — in
the source's order — deliver `err` if set, else `complete` if closed
(that branch is unreachable here since `closed` was just tested false,
but it is kept as written). -/
def replaySubject.Subscribe (s : replaySubject α ε) :
    replaySubject α ε × List (Notification α ε) × SubscribeRet :=
  if s.closed then (s, [], .emptySub)
  else
    let replayed : List (Notification α ε) := s.queue.map fun p => .next p.2
    let term : List (Notification α ε) :=
      match s.err with
      | some e => [.error e]
      | none => if s.closed then [.complete] else []
    ({ s with observers := s.observers ++ [s.fresh], fresh := s.fresh + 1 },
     replayed ++ term, .nilSub)

/-- An externally visible event of a subject run: a notification
delivered to a registered observer, or the value a `Subscribe` call
returned. -/
inductive SubjEvent (α ε : Type) where
  | deliver (i : Nat) (n : Notification α ε)
  | subRet (r : SubscribeRet)
deriving DecidableEq, Repr

/-- An operation on a behavior subject. -/
inductive BOp (α ε : Type) where
  | next (v : α)
  | error (e : ε)
  | complete
  | subscribe
deriving DecidableEq, Repr

/-- An operation on a replay subject (`next` carries the clock value the
Go code reads from `time.Now()`). -/
inductive ROp (α ε : Type) where
  | next (now : Nat) (v : α)
  | error (e : ε)
  | complete
  | subscribe
deriving DecidableEq, Repr

/-- One operation on a behavior subject, with its event log. -/
def behaviorSubject.step (s : behaviorSubject α ε) :
    BOp α ε → behaviorSubject α ε × List (SubjEvent α ε)
  | .next v =>
      let r := s.Next v
      (r.1, r.2.map fun p => .deliver p.1 p.2)
  | .error e =>
      let r := s.Error e
      (r.1, r.2.map fun p => .deliver p.1 p.2)
  | .complete =>
      let r := s.Complete
      (r.1, r.2.map fun p => .deliver p.1 p.2)
  | .subscribe =>
      let r := s.Subscribe
      (r.1, (r.2.1.map fun n => .deliver s.fresh n) ++ [.subRet r.2.2])

/-- A sequence of operations on a behavior subject, concatenating the
event logs. -/
def behaviorSubject.run (s : behaviorSubject α ε) :
    List (BOp α ε) → behaviorSubject α ε × List (SubjEvent α ε)
  | [] => (s, [])
  | op :: ops =>
      let r := s.step op
      let r2 := r.1.run ops
      (r2.1, r.2 ++ r2.2)

/-- One operation on a replay subject, with its event log (notifications
replayed to a new subscriber are logged against its observer id, which
is `s.fresh` at subscribe time). -/
def replaySubject.step (s : replaySubject α ε) :
    ROp α ε → replaySubject α ε × List (SubjEvent α ε)
  | .next now v =>
      let r := s.Next now v
      (r.1, r.2.map fun p => .deliver p.1 p.2)
  | .error e =>
      let r := s.Error e
      (r.1, r.2.map fun p => .deliver p.1 p.2)
  | .complete =>
      let r := s.Complete
      (r.1, r.2.map fun p => .deliver p.1 p.2)
  | .subscribe =>
      let r := s.Subscribe
      (r.1, (r.2.1.map fun n => .deliver s.fresh n) ++ [.subRet r.2.2])

/-- A sequence of operations on a replay subject. -/
def replaySubject.run (s : replaySubject α ε) :
    List (ROp α ε) → replaySubject α ε × List (SubjEvent α ε)
  | [] => (s, [])
  | op :: ops =>
      let r := s.step op
      let r2 := r.1.run ops
      (r2.1, r.2 ++ r2.2)

section SubjectLemmas

variable {α ε : Type}

/-- On a closed behavior subject every operation leaves the state
unchanged and logs at most a `subRet .emptySub` event. -/
lemma behaviorStep_closed (s : behaviorSubject α ε) (op : BOp α ε)
    (h : s.closed = true) :
    (s.step op).1 = s ∧ ∀ ev ∈ (s.step op).2, ev = .subRet .emptySub := by
  cases op <;>
    simp [behaviorSubject.step, behaviorSubject.Next, behaviorSubject.Error,
      behaviorSubject.Complete, behaviorSubject.Subscribe, h]

/-- On a closed replay subject every operation leaves the state
unchanged and logs at most a `subRet .emptySub` event. -/
lemma replayStep_closed (s : replaySubject α ε) (op : ROp α ε)
    (h : s.closed = true) :
    (s.step op).1 = s ∧ ∀ ev ∈ (s.step op).2, ev = .subRet .emptySub := by
  cases op <;>
    simp [replaySubject.step, replaySubject.Next, replaySubject.Error,
      replaySubject.Complete, replaySubject.Subscribe, h]

/-- Every event of a run from a closed behavior subject is a
`subRet .emptySub`. -/
lemma behaviorRun_closed (ops : List (BOp α ε)) :
    ∀ (s : behaviorSubject α ε), s.closed = true →
      ∀ ev ∈ (s.run ops).2, ev = .subRet .emptySub := by
  induction ops with
  | nil => intro s _ ev hev; simp [behaviorSubject.run] at hev
  | cons op ops ih =>
      intro s hs ev hev
      obtain ⟨hstate, hevs⟩ := behaviorStep_closed s op hs
      simp only [behaviorSubject.run, List.mem_append] at hev
      rcases hev with hev | hev
      · exact hevs ev hev
      · exact ih _ (by rw [hstate]; exact hs) ev hev

/-- Every event of a run from a closed replay subject is a
`subRet .emptySub`. -/
lemma replayRun_closed (ops : List (ROp α ε)) :
    ∀ (s : replaySubject α ε), s.closed = true →
      ∀ ev ∈ (s.run ops).2, ev = .subRet .emptySub := by
  induction ops with
  | nil => intro s _ ev hev; simp [replaySubject.run] at hev
  | cons op ops ih =>
      intro s hs ev hev
      obtain ⟨hstate, hevs⟩ := replayStep_closed s op hs
      simp only [replaySubject.run, List.mem_append] at hev
      rcases hev with hev | hev
      · exact hevs ev hev
      · exact ih _ (by rw [hstate]; exact hs) ev hev

/-- `Complete` always leaves a behavior subject closed. -/
lemma behaviorComplete_sets_closed (s : behaviorSubject α ε) :
    (s.Complete).1.closed = true := by
  by_cases h : s.closed <;> simp [behaviorSubject.Complete, h]

/-- `Complete` always leaves a replay subject closed. -/
lemma replayComplete_sets_closed (s : replaySubject α ε) :
    (s.Complete).1.closed = true := by
  by_cases h : s.closed <;> simp [replaySubject.Complete, h]

/-- `Complete` on a closed behavior subject changes nothing and
delivers nothing. -/
lemma behaviorComplete_noop_when_closed (s : behaviorSubject α ε)
    (h : s.closed = true) : s.Complete = (s, []) := by
  simp [behaviorSubject.Complete, h]

/-- `Complete` on a closed replay subject changes nothing and delivers
nothing. -/
lemma replayComplete_noop_when_closed (s : replaySubject α ε)
    (h : s.closed = true) : s.Complete = (s, []) := by
  simp [replaySubject.Complete, h]

end SubjectLemmas

section ReplayLemmas

variable {α ε : Type}

/-- `Next` on a freshly constructed replay subject leaves it in the
initial state: the appended item is trimmed away at once because
`bufferSize` is zero, and no other field changes. -/
lemma replaySubject.Next_new (now : Nat) (v : α) :
    ((NewReplaySubject : replaySubject α ε).Next now v).1 = NewReplaySubject := by
  simp [replaySubject.Next, replaySubject.trimQueue, NewReplaySubject]

/-- Applying any sequence of `Next` calls to a freshly constructed
replay subject leaves it in the initial state. -/
def replaySubject.runNexts (nexts : List (Nat × α)) : replaySubject α ε :=
  nexts.foldl (fun s p => (s.Next p.1 p.2).1) NewReplaySubject

lemma replaySubject.runNexts_eq (nexts : List (Nat × α)) :
    (replaySubject.runNexts nexts : replaySubject α ε) = NewReplaySubject := by
  show List.foldl _ _ _ = _
  induction nexts with
  | nil => rfl
  | cons p l ih => simpa [List.foldl, replaySubject.Next_new] using ih

end ReplayLemmas

/-! ## Streams of dynamically typed items and cold observables -/

/-- A dynamically typed value flowing through a stream; the Go code
distinguishes, by a type switch, values whose dynamic type implements
`error` from ordinary data values. -/
inductive GoItem (α ε : Type) where
  | value (v : α)
  | error (e : ε)
deriving DecidableEq, Repr

/-- `nextOrError`: the raw observer call `Scheduled` makes for one
item — `Error` if its dynamic type is an error, `Next` otherwise. -/
def nextOrError : GoItem α ε → Notification α ε
  | .value v => .next v
  | .error e => .error e

/-- Modelled from the spec: the generic `Subscriber`/`NewObserver`
machinery that `newObservable` wraps around the observer is not among
the sources at hand (only its uses in `observer.go` are).  The spec
makes the subscriber enforce the idempotent-terminal invariant: each
entry point is callable "at most once, mutually exclusively, for
`error`/`complete`; after the terminal call, further calls are no-ops",
and out-of-contract calls are "a silently-ignored no-op".  So the calls
actually delivered are the raw calls up to and including the first
terminal one. -/
def safeDeliver : List (Notification α ε) → List (Notification α ε)
  | [] => []
  | .next v :: rest => .next v :: safeDeliver rest
  | .error e :: _ => [.error e]
  | .complete :: _ => [.complete]

/-- `Scheduled(item, items...)`: calls `nextOrError` on each item in
order, then `Complete()`; the resulting deliveries are those the safe
subscriber lets through. -/
def Scheduled (item : GoItem α ε) (items : List (GoItem α ε)) :
    List (Notification α ε) :=
  safeDeliver (((item :: items).map nextOrError) ++ [.complete])

/-- The data values of a stream prefix before its first error item. -/
def valuesBeforeFirstError : List (GoItem α ε) → List α
  | [] => []
  | .value v :: rest => v :: valuesBeforeFirstError rest
  | .error _ :: _ => []

/-- The terminal notification a scheduled stream produces: the first
error item if any, else `complete`. -/
def firstTerminal : List (GoItem α ε) → Notification α ε
  | [] => .complete
  | .value _ :: rest => firstTerminal rest
  | .error e :: _ => .error e

/-- The downstream delivery of one cold-observable channel run, per
`iterate` (with the `onErrorReturn`/`onErrorResumeNext` hooks at their
nil defaults) and `Subscribe`: each value item becomes `OnNext`, the
first error item becomes the terminal `OnError` and stops iteration,
and a channel that closes without an error yields `OnDone`. -/
def coldDeliver : List (GoItem α ε) → List (Notification α ε)
  | [] => [.complete]
  | .error e :: _ => [.error e]
  | .value v :: rest => .next v :: coldDeliver rest

section ScheduledLemmas

variable {α ε : Type}

/-- `firstTerminal` never yields a `next`. -/
lemma firstTerminal_ne_next (l : List (GoItem α ε)) (v : α) :
    firstTerminal l ≠ .next v := by
  induction l with
  | nil => simp [firstTerminal]
  | cons i rest ih => cases i <;> simp [firstTerminal, ih]

/-- Characterization of the safe delivery of a scheduled stream. -/
lemma safeDeliver_scheduled (l : List (GoItem α ε)) :
    safeDeliver ((l.map nextOrError) ++ [.complete]) =
      (valuesBeforeFirstError l).map Notification.next ++ [firstTerminal l] := by
  induction l with
  | nil => simp [safeDeliver, valuesBeforeFirstError, firstTerminal]
  | cons i rest ih =>
      cases i <;>
        simp [safeDeliver, nextOrError, valuesBeforeFirstError, firstTerminal, ih]

end ScheduledLemmas

/-! ## BufferWithCount -/

/-- Errors an operator puts on its output channel: the configuration
error built by `errors.New(errors.IllegalInputError, msg)`, or an
upstream error item forwarded unchanged. -/
inductive RxError (ε : Type) where
  | illegalInput (msg : String)
  | upstream (e : ε)
deriving DecidableEq, Repr

/-- The consumption loop of `observable.BufferWithCount` after the
parameter checks: `buffer` is the `count`-sized slice allocated with
`make` (so initially filled with the zero value `zero`), `iCount` the
number of slots filled since the last emission, `iSkip` the number of
items consumed since the last emission.  Value items fill the buffer
(or are skipped once it is full) and the full `buffer` slice is emitted
whenever `iSkip` reaches `skip`; an error item flushes the partial
buffer prefix and forwards the error, closing the channel; upstream
completion flushes the partial prefix and closes. -/
def bwcLoop (count skip : Nat) (zero : α) :
    List α → Nat → Nat → List (GoItem α ε) → List (GoItem (List α) (RxError ε))
  | buffer, iCount, _, [] =>
      if iCount ≠ 0 then [.value (buffer.take iCount)] else []
  | buffer, iCount, _, .error e :: _ =>
      (if iCount ≠ 0 then [.value (buffer.take iCount)] else []) ++
        [.error (.upstream e)]
  | buffer, iCount, iSkip, .value item :: rest =>
      let buffer' := if count ≤ iCount then buffer else buffer.set iCount item
      let iCount' := if count ≤ iCount then iCount else iCount + 1
      if iSkip + 1 = skip then
        .value buffer' :: bwcLoop count skip zero (List.replicate count zero) 0 0 rest
      else
        bwcLoop count skip zero buffer' iCount' (iSkip + 1) rest

/-- `observable.BufferWithCount(count, skip)` applied to one upstream
run: non-positive parameters put a configuration error on the channel
and close it; otherwise the consumption loop runs with a zero-filled
`count`-sized buffer. -/
def BufferWithCount (zero : α) (count skip : Int)
    (items : List (GoItem α ε)) : List (GoItem (List α) (RxError ε)) :=
  if count ≤ 0 then [.error (.illegalInput "count must be positive")]
  else if skip ≤ 0 then [.error (.illegalInput "skip must be positive")]
  else bwcLoop count.toNat skip.toNat zero
    (List.replicate count.toNat zero) 0 0 items

/-- Spec-side definition, from the specification's words for the
`skip == count` case: partition the input into disjoint tumbling
windows of size `n`, the final window being the partial remainder and
appearing iff it is non-empty. -/
def tumblingWindows : Nat → List α → List (List α)
  | _, [] => []
  | 0, l => [l]
  | n + 1, x :: xs => ((x :: xs).take (n + 1)) :: tumblingWindows (n + 1) (xs.drop n)
termination_by _ l => l.length
decreasing_by simp; omega

section BufferLemmas

variable {α ε : Type}

lemma tumblingWindows_cons (n : Nat) (hn : 0 < n) (x : α) (xs : List α) :
    tumblingWindows n (x :: xs) =
      ((x :: xs).take n) :: tumblingWindows n ((x :: xs).drop n) := by
  cases n with
  | zero => omega
  | succ m => rw [tumblingWindows]; simp

lemma tumblingWindows_of_ne_nil (n : Nat) (hn : 0 < n) (l : List α)
    (hl : l ≠ []) :
    tumblingWindows n l = (l.take n) :: tumblingWindows n (l.drop n) := by
  cases l with
  | nil => exact absurd rfl hl
  | cons x xs => exact tumblingWindows_cons n hn x xs

lemma take_length_append (l l' : List α) : (l ++ l').take l.length = l := by
  induction l with
  | nil => rfl
  | cons a t ih => simp [List.take, ih]

lemma drop_length_append (l l' : List α) : (l ++ l').drop l.length = l' := by
  induction l with
  | nil => rfl
  | cons a t ih => simp [List.drop, ih]

lemma set_length_append (l : List α) (a b : α) (t : List α) :
    (l ++ a :: t).set l.length b = l ++ b :: t := by
  induction l with
  | nil => rfl
  | cons x xs ih => simp [List.set, ih]

lemma take_append_eq (l l' : List α) (n : Nat) (h : l.length = n) :
    (l ++ l').take n = l := by
  subst h; exact take_length_append l l'

lemma drop_append_eq (l l' : List α) (n : Nat) (h : l.length = n) :
    (l ++ l').drop n = l' := by
  subst h; exact drop_length_append l l'

/-- Loop invariant for `skip == count`: with `acc` the values already
collected in the buffer (its remainder still zero-filled) and
`iCount = iSkip = acc.length`, running the loop on the remaining values
emits exactly the tumbling windows of `acc` followed by those values. -/
lemma bwcLoop_eq_tumbling (count : Nat) (hc : 0 < count) (zero : α)
    (vals : List α) :
    ∀ (acc : List α), acc.length < count →
      bwcLoop (ε := ε) count count zero
          (acc ++ List.replicate (count - acc.length) zero)
          acc.length acc.length (vals.map .value)
        = (tumblingWindows count (acc ++ vals)).map .value := by
  induction vals with
  | nil =>
      intro acc hlt
      cases acc with
      | nil => simp [bwcLoop, tumblingWindows]
      | cons a t =>
          rw [List.map_nil, List.append_nil,
            tumblingWindows_of_ne_nil count hc _ (by simp),
            List.take_of_length_le (le_of_lt hlt),
            List.drop_eq_nil_of_le (le_of_lt hlt)]
          simp [bwcLoop, take_length_append, tumblingWindows]
  | cons v rest ih =>
      intro acc hlt
      have hnotle : ¬ count ≤ acc.length := by omega
      have hk : count - acc.length = (count - (acc.length + 1)) + 1 := by omega
      rw [List.map_cons]
      simp only [bwcLoop, if_neg hnotle, hk, List.replicate_succ,
        set_length_append]
      by_cases hfull : acc.length + 1 = count
      · rw [if_pos hfull]
        have hrep : count - (acc.length + 1) = 0 := by omega
        have hrec := ih [] (by simpa using hc)
        simp only [List.length_nil, Nat.sub_zero, List.nil_append] at hrec
        have hne : acc ++ v :: rest ≠ [] := by simp
        have h3 : acc ++ v :: rest = (acc ++ [v]) ++ rest := by simp
        have hlen : (acc ++ [v]).length = count := by simp; omega
        rw [tumblingWindows_of_ne_nil count hc _ hne, h3,
          take_append_eq _ _ _ hlen, drop_append_eq _ _ _ hlen]
        simp [hrep, hrec]
      · rw [if_neg hfull]
        have hlt2 : (acc ++ [v]).length < count := by simp; omega
        have hrec := ih (acc ++ [v]) hlt2
        have hlen2 : (acc ++ [v]).length = acc.length + 1 := by simp
        rw [hlen2] at hrec
        simpa using hrec

/-- With `count = 3`, `skip = 1` the loop emits, for every consumed
value, the full three-slot buffer `[v, zero, zero]` and resets. -/
lemma bwcLoop_three_one (zero : α) (vals : List α) :
    bwcLoop (ε := ε) 3 1 zero (List.replicate 3 zero) 0 0 (vals.map .value)
      = vals.map (fun v => .value [v, zero, zero]) := by
  induction vals with
  | nil => rfl
  | cons v rest ih =>
      simp [bwcLoop, List.replicate, List.set]
      exact ih

end BufferLemmas

/-! ## ZipFromObservable -/

/-- `observable.ZipFromObservable` over two finite upstream runs: pull
one item from the first source; for each, pull one item from the second
and emit the zipped pair; when either iterator is exhausted, close the
output channel. -/
def ZipFromObservable (zipper : α → β → γ) : List α → List β → List γ
  | [], _ => []
  | _ :: _, [] => []
  | x :: xs, y :: ys => zipper x y :: ZipFromObservable zipper xs ys

section ZipLemmas

variable {α β γ ε : Type}

/-- Delivering a channel of pure value items: every item becomes a
`next` and the channel close becomes `complete`. -/
lemma coldDeliver_values (l : List γ) :
    coldDeliver ((l.map .value : List (GoItem γ ε))) =
      l.map .next ++ [.complete] := by
  induction l with
  | nil => rfl
  | cons x xs ih => simp [coldDeliver, ih]

lemma ZipFromObservable_eq_zipWith (zipper : α → β → γ) :
    ∀ (l1 : List α) (l2 : List β),
      ZipFromObservable zipper l1 l2 = List.zipWith zipper l1 l2
  | [], _ => by simp [ZipFromObservable]
  | _ :: _, [] => by simp [ZipFromObservable]
  | x :: xs, y :: ys => by
      simp [ZipFromObservable, List.zipWith,
        ZipFromObservable_eq_zipWith zipper xs ys]

end ZipLemmas

/-! ## Claim theorems: the subject family -/

/-- C1 (counterexample): on a behavior subject on which `Error(7)` has
been called, a later `Subscribe` returns Go `nil` — not the terminal
empty subscription — and the newly registered observer (id 0) does have
its next callback invoked by a subsequent `Next(5)`, contradicting the
claim at this concrete input. -/
theorem behaviorSubject_after_error_subscribe_live :
    (((NewBehaviorSubject (α := Nat) (ε := Nat) 0).Error 7).1.Subscribe.2.2 ≠
        SubscribeRet.emptySub) ∧
    ((((NewBehaviorSubject (α := Nat) (ε := Nat) 0).Error 7).1.Subscribe.1.Next 5).2 =
        [(0, Notification.next 5)]) := by
  decide

/-- C1 (amended): after `Complete()` on either subject, every event of
any later operation sequence is a `Subscribe` returning the
already-terminal empty subscription; in particular no observer — new or
old — is ever delivered a notification again. -/
theorem subjects_subscribe_after_complete_terminal {α ε : Type}
    (s : behaviorSubject α ε) (t : replaySubject α ε)
    (ops : List (BOp α ε)) (rops : List (ROp α ε)) :
    (∀ ev ∈ ((s.Complete).1.run ops).2, ev = .subRet .emptySub) ∧
    (∀ ev ∈ ((t.Complete).1.run rops).2, ev = .subRet .emptySub) :=
  ⟨behaviorRun_closed ops _ (behaviorComplete_sets_closed s),
   replayRun_closed rops _ (replayComplete_sets_closed t)⟩

/-- Witness for C1 (amended) at concrete inputs. -/
theorem subjects_subscribe_after_complete_terminal_witness :
    (SubjEvent.subRet SubscribeRet.emptySub : SubjEvent Nat Nat) =
        .subRet .emptySub ∧
    (SubjEvent.subRet SubscribeRet.emptySub : SubjEvent Nat Nat) =
        .subRet .emptySub :=
  ⟨(subjects_subscribe_after_complete_terminal (NewBehaviorSubject 0)
      NewReplaySubject [BOp.subscribe] [ROp.subscribe]).1 _ (by decide),
   (subjects_subscribe_after_complete_terminal (NewBehaviorSubject 0)
      NewReplaySubject [BOp.subscribe] [ROp.subscribe]).2 _ (by decide)⟩

/-- C2 (code evaluated at the failing input): `behaviorSubject.Subscribe`
delivers no notification whatsoever to the new observer — in every
state — and in particular in the scenario of `TestBehaviorSubject`
(`Next(188); Next(111); Subscribe`) the retained value is `111` yet the
subscriber receives nothing at subscribe time, so the test's
`latestValue == 111` expectation fails. -/
theorem behaviorSubject_subscribe_delivers_nothing :
    (∀ {α ε : Type} (s : behaviorSubject α ε), s.Subscribe.2.1 = []) ∧
    ((((NewBehaviorSubject (α := Nat) (ε := Nat) 0).Next 188).1.Next 111).1.Value
        = 111) ∧
    ((((NewBehaviorSubject (α := Nat) (ε := Nat) 0).Next 188).1.Next 111).1.Subscribe.2.1
        = []) := by
  refine ⟨fun s => ?_, by decide, by decide⟩
  by_cases h : s.closed <;> simp [behaviorSubject.Subscribe, h]

/-- C7 (counterexample): `Next(5)` after `Error(7)` on a behavior
subject is not a no-op: it changes the retained current value from `0`
to `5`, contradicting the claim at this concrete input. -/
theorem behaviorSubject_next_after_error_not_noop :
    (((NewBehaviorSubject (α := Nat) (ε := Nat) 0).Error 7).1.v = 0) ∧
    ((((NewBehaviorSubject (α := Nat) (ε := Nat) 0).Error 7).1.Next 5).1.v = 5) ∧
    ((((NewBehaviorSubject (α := Nat) (ε := Nat) 0).Error 7).1.Next 5).1 ≠
        ((NewBehaviorSubject (α := Nat) (ε := Nat) 0).Error 7).1) := by
  decide

/-- C7 (amended): on a closed subject (the state `Complete()` leaves
behind) every `Next`/`Error`/`Complete` call is a no-op — state
unchanged, nothing delivered — and consequently calling `Complete()`
twice has the same observable effect as calling it once, the second
call changing nothing and delivering nothing; this holds for both
subject kinds. -/
theorem subjects_closed_calls_noop {α ε : Type} :
    (∀ s : behaviorSubject α ε, s.closed = true →
        (∀ v, s.Next v = (s, [])) ∧ (∀ e, s.Error e = (s, [])) ∧
        s.Complete = (s, [])) ∧
    (∀ s : behaviorSubject α ε, (s.Complete).1.Complete = ((s.Complete).1, [])) ∧
    (∀ t : replaySubject α ε, t.closed = true →
        (∀ now v, t.Next now v = (t, [])) ∧ (∀ e, t.Error e = (t, [])) ∧
        t.Complete = (t, [])) ∧
    (∀ t : replaySubject α ε, (t.Complete).1.Complete = ((t.Complete).1, [])) := by
  refine ⟨fun s h => ?_, fun s => ?_, fun t h => ?_, fun t => ?_⟩
  · exact ⟨fun v => by simp [behaviorSubject.Next, h],
      fun e => by simp [behaviorSubject.Error, h],
      by simp [behaviorSubject.Complete, h]⟩
  · exact behaviorComplete_noop_when_closed _ (behaviorComplete_sets_closed s)
  · exact ⟨fun now v => by simp [replaySubject.Next, h],
      fun e => by simp [replaySubject.Error, h],
      by simp [replaySubject.Complete, h]⟩
  · exact replayComplete_noop_when_closed _ (replayComplete_sets_closed t)

/-- Witness for C7 (amended) at concrete closed states. -/
theorem subjects_closed_calls_noop_witness :
    (((NewBehaviorSubject (α := Nat) (ε := Nat) 0).Complete).1.Next 5 =
        (((NewBehaviorSubject (α := Nat) (ε := Nat) 0).Complete).1, [])) ∧
    (((NewReplaySubject : replaySubject Nat Nat).Complete).1.Next 3 5 =
        (((NewReplaySubject : replaySubject Nat Nat).Complete).1, [])) :=
  ⟨((subjects_closed_calls_noop.1 _ (by decide)).1) 5,
   ((subjects_closed_calls_noop.2.2.1 _ (by decide)).1) 3 5⟩

/-- C8: one `Next` call preserves the bound `len(queue) ≤ bufferSize`
(the capacity itself being unchanged), and when the appended item would
exceed the capacity the oldest entry — the queue head — is the one
evicted, preserving FIFO order. -/
theorem replaySubject_next_bounded_fifo {α ε : Type}
    (s : replaySubject α ε) (now : Nat) (v : α)
    (h : s.queue.length ≤ s.bufferSize) :
    ((s.Next now v).1.queue.length ≤ s.bufferSize) ∧
    ((s.Next now v).1.bufferSize = s.bufferSize) ∧
    (s.closed = false →
      (s.Next now v).1.queue =
        if s.bufferSize < s.queue.length + 1
        then (s.queue ++ [(now, v)]).drop 1
        else s.queue ++ [(now, v)]) := by
  by_cases hc : s.closed
  · simp [replaySubject.Next, hc, h]
  · by_cases hl : s.bufferSize < s.queue.length + 1 <;>
      simp [replaySubject.Next, replaySubject.trimQueue, hc, hl] <;>
      omega

/-- Witness for C8 at a concrete input. -/
theorem replaySubject_next_bounded_fifo_witness :
    (({ closed := false, err := none, observers := [], fresh := 0,
        bufferSize := 1, queue := [(0, 10)] } : replaySubject Nat Nat).Next 1 20).1.queue
      = [(1, 20)] := by
  have h := (replaySubject_next_bounded_fifo
    ({ closed := false, err := none, observers := [], fresh := 0,
       bufferSize := 1, queue := [(0, 10)] } : replaySubject Nat Nat) 1 20
    (by decide)).2.2 rfl
  simpa using h

/-- C10: `NewReplaySubject` constructs a subject whose capacity is the
`uint64` zero value (the constructor takes no arguments that could set
it), after any sequence of `Next` calls the retained queue is empty,
and a subscriber joining then receives zero notifications — in
particular zero replayed values — at subscribe time. -/
theorem NewReplaySubject_zero_capacity {α ε : Type}
    (nexts : List (Nat × α)) :
    ((NewReplaySubject : replaySubject α ε).bufferSize = 0) ∧
    ((replaySubject.runNexts nexts : replaySubject α ε).queue = []) ∧
    ((replaySubject.runNexts nexts : replaySubject α ε).Subscribe.2.1 = []) := by
  refine ⟨rfl, ?_, ?_⟩ <;>
    simp [replaySubject.runNexts_eq, NewReplaySubject, replaySubject.Subscribe]

/-- C3: the sequence of observer calls delivered by subscribing to
`Scheduled(items...)` is zero or more `next` calls — the data values
preceding the first error item, in emission order — followed by exactly
one terminal call (the first error item if any, else `complete`), and
no call of any kind follows that terminal call (the delivered list ends
with it). -/
theorem Scheduled_grammar {α ε : Type} (item : GoItem α ε)
    (items : List (GoItem α ε)) :
    Scheduled item items =
      (valuesBeforeFirstError (item :: items)).map Notification.next ++
        [firstTerminal (item :: items)] ∧
    (firstTerminal (item :: items) = .complete ∨
      ∃ e, firstTerminal (item :: items) = .error e) := by
  refine ⟨safeDeliver_scheduled _, ?_⟩
  cases h : firstTerminal (item :: items) with
  | next v => exact absurd h (firstTerminal_ne_next _ v)
  | error e => exact Or.inr ⟨e, rfl⟩
  | complete => exact Or.inl rfl

/-- C4: with `skip == count = n > 0`, `BufferWithCount` partitions a
completing source of values into disjoint tumbling windows with a final
partial window iff it is non-empty; in particular over `[1..10]` with
`count = skip = 3` the subscriber receives exactly the buffers
`[1,2,3], [4,5,6], [7,8,9], [10]` and then completes. -/
theorem BufferWithCount_tumbling {α ε : Type} (zero : α) (n : Nat)
    (hn : 0 < n) (vals : List α) :
    (BufferWithCount (ε := ε) zero (n : Int) (n : Int) (vals.map .value)
        = (tumblingWindows n vals).map .value) ∧
    (coldDeliver (BufferWithCount (ε := Unit) (0 : Nat) (3 : Int) (3 : Int)
          ((List.range' 1 10 1).map .value))
        = [.next [1, 2, 3], .next [4, 5, 6], .next [7, 8, 9], .next [10],
           .complete]) := by
  constructor
  · have hle : ¬ ((n : Int) ≤ 0) := by omega
    rw [BufferWithCount, if_neg hle, if_neg hle]
    have ht : (n : Int).toNat = n := by omega
    rw [ht]
    have h := bwcLoop_eq_tumbling (ε := ε) n hn zero vals [] (by simpa using hn)
    simpa using h
  · decide

/-- Witness for C4 at a concrete input. -/
theorem BufferWithCount_tumbling_witness :
    BufferWithCount (ε := Unit) (0 : Nat) (2 : Int) (2 : Int)
        ([5, 6, 7].map .value)
      = (tumblingWindows 2 [5, 6, 7]).map .value :=
  (BufferWithCount_tumbling (0 : Nat) 2 (by decide) [5, 6, 7]).1

/-- C5 (counterexample): `BufferWithCount(3,1)` over the source
`[1,2,3,4]` emits `[1,z,z], [2,z,z], [3,z,z], [4,z,z]` (with `z` the
element type's zero value, here `none`): the first emitted window
contains the padding value `none`, which the source never emitted, so
the claim that every window contains only values actually produced by
the source is false at this input. -/
theorem BufferWithCount_padding_counterexample :
    (BufferWithCount (ε := Unit) (none : Option Nat) (3 : Int) (1 : Int)
        [.value (some 1), .value (some 2), .value (some 3), .value (some 4)]
      = [.value [some 1, none, none], .value [some 2, none, none],
         .value [some 3, none, none], .value [some 4, none, none]]) ∧
    GoItem.value [some 1, none, none] ∈
      BufferWithCount (ε := Unit) (none : Option Nat) (3 : Int) (1 : Int)
        [.value (some 1), .value (some 2), .value (some 3), .value (some 4)] ∧
    ¬ ((none : Option Nat) ∈ [some 1, some 2, some 3, some 4]) := by
  decide

/-- C5 (amended): for `count = 3`, `skip = 1` the operator emits, after
every consumed element, the full three-slot internal buffer — the
element just written followed by the buffer's remaining zero-value
slots — so windows neither overlap nor shrink: over `[1,2,3,4]` the
subscriber receives `[1,z,z], [2,z,z], [3,z,z], [4,z,z]` and then
completes. -/
theorem BufferWithCount_skip_one_padded {α ε : Type} (zero : α)
    (vals : List α) :
    (BufferWithCount (ε := ε) zero (3 : Int) (1 : Int) (vals.map .value)
        = vals.map fun v => .value [v, zero, zero]) ∧
    (coldDeliver (BufferWithCount (ε := Unit) (none : Option Nat) (3 : Int)
          (1 : Int)
          [.value (some 1), .value (some 2), .value (some 3), .value (some 4)])
        = [.next [some 1, none, none], .next [some 2, none, none],
           .next [some 3, none, none], .next [some 4, none, none],
           .complete]) := by
  constructor
  · rw [BufferWithCount, if_neg (by omega), if_neg (by omega)]
    exact bwcLoop_three_one zero vals
  · decide

/-- C6: for `count ≤ 0` or `skip ≤ 0`, the run delivered to the first
subscriber is a single immediate terminal `Error` notification carrying
the configuration error — no buffer is emitted — regardless of the
upstream items; construction itself (`newColdObservable`) cannot fail,
the error being produced only when the returned observable is
subscribed and its channel run. -/
theorem BufferWithCount_config_error {α ε : Type} (zero : α)
    (count skip : Int) (items : List (GoItem α ε))
    (h : count ≤ 0 ∨ skip ≤ 0) :
    coldDeliver (BufferWithCount zero count skip items)
      = [.error (.illegalInput
          (if count ≤ 0 then "count must be positive"
           else "skip must be positive"))] := by
  by_cases hc : count ≤ 0
  · simp [BufferWithCount, coldDeliver, hc]
  · have hs : skip ≤ 0 := h.resolve_left hc
    simp [BufferWithCount, coldDeliver, hc, hs]

/-- Witness for C6 at a concrete input. -/
theorem BufferWithCount_config_error_witness :
    coldDeliver (BufferWithCount (ε := Unit) (0 : Nat) (0 : Int) (3 : Int)
        [.value 1])
      = [.error (.illegalInput "count must be positive")] := by
  have h := BufferWithCount_config_error (ε := Unit) (0 : Nat) 0 3
    [.value 1] (Or.inl (by omega))
  simpa using h

/-- C9: zipping two finite sources emits exactly
`min (length l1) (length l2)` combined values — positionally, the i-th
output combines the i-th element of each source — then completes;
leftover values of the longer source are discarded (the result is
exactly `zipWith`). -/
theorem ZipFromObservable_spec {α β γ ε : Type} (zipper : α → β → γ)
    (l1 : List α) (l2 : List β) :
    (ZipFromObservable zipper l1 l2 = List.zipWith zipper l1 l2) ∧
    ((ZipFromObservable zipper l1 l2).length = min l1.length l2.length) ∧
    (∀ (i : Nat) (x : α) (y : β), l1[i]? = some x → l2[i]? = some y →
        (ZipFromObservable zipper l1 l2)[i]? = some (zipper x y)) ∧
    (coldDeliver ((ZipFromObservable zipper l1 l2).map .value
          : List (GoItem γ ε))
        = (ZipFromObservable zipper l1 l2).map .next ++ [.complete]) := by
  refine ⟨ZipFromObservable_eq_zipWith zipper l1 l2, ?_, ?_,
    coldDeliver_values _⟩
  · rw [ZipFromObservable_eq_zipWith]
    exact List.length_zipWith zipper l1 l2
  · intro i x y hx hy
    rw [ZipFromObservable_eq_zipWith]
    rw [List.getElem?_zipWith]
    simp [hx, hy]

/-- Witness for C9 at a concrete input. -/
theorem ZipFromObservable_spec_witness :
    (ZipFromObservable (fun a b => a + b) [1, 2, 3] [10, 20])[0]?
      = some 11 :=
  (ZipFromObservable_spec (ε := Unit) (fun a b => a + b)
    [1, 2, 3] [10, 20]).2.2.1 0 1 10 rfl rfl

end RxGo
